import Mathlib

/-!
Verification of the Judgment card-game server engine (src/index.js).

The JavaScript engine is shallowly embedded: each socket handler becomes a
pure function from a room state (plus the requesting connection id and the
event payload) to either an error message or an updated room state,
mirroring the source line by line.  JavaScript objects keyed by connection
id are modelled as association lists with string keys; JavaScript numbers
that may go negative are modelled as integers.
-/

namespace Judgment

/-- A card as produced by the deck collaborator: a rank string and a suit string. -/
structure Card where
  rank : String
  suit : String
deriving Repr, DecidableEq

/-- A room member: connection id and display name (src/index.js line 78). -/
structure Player where
  id : String
  name : String
deriving Repr, DecidableEq

/-- One entry of the current trick: who played which card (src/index.js line 512). -/
structure TrickPlay where
  playerId : String
  playerName : String
  card : Card
deriving Repr, DecidableEq

/-- The GAME_STATES constants (src/index.js lines 31 to 36). -/
inductive GameState where
  | waiting
  | predicting
  | playing
  | scoring
deriving Repr, DecidableEq

/-- Lookup in a JavaScript-object-as-association-list: first binding wins. -/
def mapGet {α : Type} (m : List (String × α)) (k : String) : Option α :=
  match m with
  | [] => none
  | (k', v) :: rest => if k' = k then some v else mapGet rest k

/-- Assignment obj[k] = v on a JavaScript object: replace the first binding
of k, or append a new binding when k is absent. -/
def mapSet {α : Type} (m : List (String × α)) (k : String) (v : α) : List (String × α) :=
  match m with
  | [] => [(k, v)]
  | (k', v') :: rest => if k' = k then (k, v) :: rest else (k', v') :: mapSet rest k v

/-- The JavaScript delete obj[k] operation. -/
def mapErase {α : Type} (m : List (String × α)) (k : String) : List (String × α) :=
  m.filter (fun kv => kv.1 != k)

/-- Object.values(m).reduce((s, p) => s + p, 0) over an integer-valued object. -/
def sumValues (m : List (String × Int)) : Int :=
  (m.map Prod.snd).foldl (· + ·) 0

/-- The full mutable room state (src/index.js lines 76 to 102, plus the
predictionOrder field attached by startRound at line 291). -/
structure Room where
  host : String
  players : List Player
  maxPlayers : Int
  number_of_decks : Int
  max_round_cards : Int
  min_round_cards : Int
  trump_rotation : List String
  current_round : Nat
  cards_this_round : Int
  turn_index : Nat
  state : GameState
  ascending : Bool
  predictions : List (String × Int)
  tricks_won : List (String × Int)
  scores : List (String × Int)
  current_trick : List TrickPlay
  playerHands : List (String × List Card)
  predictionOrder : List String
  current_play_order : List String
  next_player_index : Nat
deriving Repr, DecidableEq

/-- Helper to classify an Except result as an error. -/
def isError {ε α : Type} : Except ε α → Bool
  | .error _ => true
  | .ok _ => false

/-- Helper to classify an Except result as a success. -/
def isOk {ε α : Type} : Except ε α → Bool
  | .error _ => false
  | .ok _ => true

/-- The room state seen after a handler runs: on an error the JavaScript
handler returned before mutating anything, so the old room persists. -/
def applyResult (r : Except String Room) (old : Room) : Room :=
  match r with
  | .ok new => new
  | .error _ => old

/-- getCardValue (src/index.js lines 52 to 58): rank string to comparison
value, 2 to 10 numeric, J=11, Q=12, K=13, A=14, anything else 0. -/
def getCardValue (rank : String) : Nat :=
  if rank = "2" then 2
  else if rank = "3" then 3
  else if rank = "4" then 4
  else if rank = "5" then 5
  else if rank = "6" then 6
  else if rank = "7" then 7
  else if rank = "8" then 8
  else if rank = "9" then 9
  else if rank = "10" then 10
  else if rank = "J" then 11
  else if rank = "Q" then 12
  else if rank = "K" then 13
  else if rank = "A" then 14
  else 0

/-- Array.prototype.findIndex: the index of the first element satisfying the
test, with the JavaScript -1 result modelled as none. -/
def findIndex (l : List String) (me : String) : Option Nat :=
  match l with
  | [] => none
  | a :: rest => if a = me then some 0 else (findIndex rest me).map (· + 1)

/-- players.slice(i).concat(players.slice(0, i)): rotate a list so position i
comes first (src/index.js lines 290, 327, 559). -/
def rotate {α : Type} (l : List α) (i : Nat) : List α :=
  l.drop i ++ l.take i

/-- The loop body of determineTrickWinner (src/index.js lines 350 to 375),
carrying the current winning play, its cached value and the trump flag. -/
def trickWinnerGo (leadSuit trumpSuit : String) :
    TrickPlay → Nat → Bool → List TrickPlay → TrickPlay
  | w, _, _, [] => w
  | w, wv, isT, c :: rest =>
    let cv := getCardValue c.card.rank
    let cT := c.card.suit = trumpSuit
    if cT ∧ ¬ isT then
      trickWinnerGo leadSuit trumpSuit c cv true rest
    else if cT ∧ isT then
      if cv > wv then trickWinnerGo leadSuit trumpSuit c cv true rest
      else if cv = wv then trickWinnerGo leadSuit trumpSuit c wv true rest
      else trickWinnerGo leadSuit trumpSuit w wv true rest
    else if ¬ cT ∧ ¬ isT ∧ c.card.suit = leadSuit then
      if cv > wv then trickWinnerGo leadSuit trumpSuit c cv false rest
      else if cv = wv then trickWinnerGo leadSuit trumpSuit c wv false rest
      else trickWinnerGo leadSuit trumpSuit w wv false rest
    else
      trickWinnerGo leadSuit trumpSuit w wv isT rest

/-- determineTrickWinner (src/index.js lines 344 to 378).  The JavaScript
function reads trick[0], so the empty trick is modelled as none. -/
def determineTrickWinner (trick : List TrickPlay) (trumpSuit : String) : Option TrickPlay :=
  match trick with
  | [] => none
  | c0 :: rest =>
    some (trickWinnerGo c0.card.suit trumpSuit c0 (getCardValue c0.card.rank)
      (decide (c0.card.suit = trumpSuit)) rest)

/-- Last maximum by card value starting from a seed play: a later play
replaces the current winner exactly when its value is at least as large,
so equal values keep the later play. -/
def lastMaxFrom (w : TrickPlay) (l : List TrickPlay) : TrickPlay :=
  l.foldl (fun a c =>
    if getCardValue a.card.rank ≤ getCardValue c.card.rank then c else a) w

/-- Modelled from the spec: the trick winner described in natural language in
the spec section on trick resolution.  If any trump card was played, the
winner is the highest-ranked trump, ties resolving to the later play;
otherwise the winner is the highest-ranked card of the lead suit (the suit of
the first play), ties again resolving to the later play; a card of neither
suit never wins.  Stated here as the refinement companion to
determineTrickWinner. -/
def specTrickWinner (trick : List TrickPlay) (trumpSuit : String) : Option TrickPlay :=
  match trick with
  | [] => none
  | c0 :: _ =>
    match trick.filter (fun p => p.card.suit == trumpSuit) with
    | t0 :: ts => some (lastMaxFrom t0 ts)
    | [] =>
      match trick.filter (fun p => p.card.suit == c0.card.suit) with
      | l0 :: ls => some (lastMaxFrom l0 ls)
      | [] => none

/-- validateGameConfig (src/index.js lines 39 to 49). -/
def validateGameConfig (number_of_decks min_round_cards max_round_cards maxPlayers : Int) :
    Option String :=
  if number_of_decks < 1 then some "Number of decks must be at least 1"
  else if min_round_cards < 1 then some "Minimum round cards must be at least 1"
  else if max_round_cards < 1 then some "Maximum round cards must be at least 1"
  else if min_round_cards > max_round_cards then some "Minimum cards cannot exceed maximum cards"
  else if maxPlayers < 2 then some "Need at least 2 players"
  else if max_round_cards * maxPlayers > 52 * number_of_decks then
    some "Not enough cards for the specified configuration"
  else none

/-- The createRoom handler (src/index.js lines 63 to 114).  The check that
the room code is already taken is at the rooms-map level and is passed in as
a flag; the room object has no predictionOrder property at creation, modelled
as the empty list. -/
def createRoom (roomExists : Bool) (me playerName : String)
    (maxPlayers number_of_decks max_round_cards min_round_cards : Int) :
    Except String Room :=
  if roomExists then .error "Room already exists"
  else
    match validateGameConfig number_of_decks min_round_cards max_round_cards maxPlayers with
    | some err => .error err
    | none => .ok
      { host := me
        players := [⟨me, playerName⟩]
        maxPlayers := maxPlayers
        number_of_decks := number_of_decks
        max_round_cards := max_round_cards
        min_round_cards := min_round_cards
        trump_rotation := ["Spades", "Diamonds", "Clubs", "Hearts"]
        current_round := 1
        cards_this_round := min_round_cards
        turn_index := 0
        state := GameState.waiting
        ascending := true
        predictions := []
        tricks_won := []
        scores := []
        current_trick := []
        playerHands := []
        predictionOrder := []
        current_play_order := []
        next_player_index := 0 }

/-- The joinRoom handler (src/index.js lines 116 to 146), for an existing
room; the room-not-found case lives at the rooms-map level. -/
def joinRoom (room : Room) (me playerName : String) : Except String Room :=
  if room.players.any (fun p => p.id == me) then
    .error "You are already in this room"
  else if room.state ≠ GameState.waiting then
    .error "Game has already started"
  else if (room.players.length : Int) ≥ room.maxPlayers then
    .error "Room is full"
  else
    .ok { room with players := room.players ++ [⟨me, playerName⟩] }

/-- Dealing loop of startRound (src/index.js lines 276 to 283): each player
splices cardsThisRound cards off the front of the deck, in player order. -/
def dealHands (players : List Player) (deck : List Card) (n : Nat) :
    List (String × List Card) :=
  match players with
  | [] => []
  | p :: rest => (p.id, deck.take n) :: dealHands rest (deck.drop n) n

/-- startRound (src/index.js lines 257 to 322).  The shuffled deck produced
by the external createDeck collaborator is a parameter.  The trump suit is
computed only for broadcast and does not change the room state. -/
def startRound (room : Room) (deck : List Card) : Room :=
  let players := room.players
  let room1 := { room with
    predictions := []
    tricks_won := players.map (fun (p : Player) => (p.id, (0 : Int)))
    current_trick := []
    current_play_order := []
    next_player_index := 0
    state := GameState.predicting
    playerHands := dealHands players deck room.cards_this_round.toNat }
  let leaderIndex := room.turn_index % players.length
  { room1 with predictionOrder := (rotate players leaderIndex).map Player.id }

/-- The startGame handler (src/index.js lines 148 to 172): host check,
minimum player count, zero-initialise scores, then startRound. -/
def startGame (room : Room) (me : String) (deck : List Card) : Except String Room :=
  if me ≠ room.host then .error "Only the host can start the game"
  else if room.players.length < 2 then .error "Need at least 2 players to start"
  else
    let scores1 := room.players.foldl (fun sc p => mapSet sc p.id 0) room.scores
    .ok (startRound { room with scores := scores1 } deck)

/-- startPlayPhase (src/index.js lines 324 to 342): rotate the player list so
the seat at turn_index leads, reset the trick cursor. -/
def startPlayPhase (room : Room) : Room :=
  let leaderIndex := room.turn_index % room.players.length
  let playOrder := rotate room.players leaderIndex
  { room with current_play_order := playOrder.map Player.id, next_player_index := 0 }

/-- The makePrediction handler (src/index.js lines 174 to 255).  Note that
the source only rejects a requester whose id is absent from predictionOrder
(findIndex equal to -1), and that the forced-unequal-sum check compares the
index in the shrinking predictionOrder queue against players.length - 1. -/
def makePrediction (room : Room) (me : String) (prediction : Int) : Except String Room :=
  if room.state ≠ GameState.predicting then
    .error "Not in prediction phase"
  else
    match room.players.find? (fun p => p.id == me) with
    | none => .error "Player not found in room"
    | some _player =>
      if prediction < 0 ∨ prediction > room.cards_this_round then
        .error ("Prediction must be between 0 and " ++ toString room.cards_this_round)
      else
        match findIndex room.predictionOrder me with
        | none => .error "It\x27s not your turn to predict"
        | some currentPlayerIndex =>
          let otherPredictions := mapErase room.predictions me
          let totalPredictions := sumValues otherPredictions
          if currentPlayerIndex = room.players.length - 1 ∧
              totalPredictions + prediction = room.cards_this_round then
            .error "Last player\x27s prediction cannot make total equal to number of tricks"
          else
            let room1 := { room with
              predictions := mapSet room.predictions me prediction
              predictionOrder := room.predictionOrder.filter (fun id => id != me) }
            if room1.predictions.length = room.players.length then
              .ok (startPlayPhase { room1 with state := GameState.playing })
            else
              .ok room1

/-- Success path of the playCard handler (src/index.js lines 508 to 584):
remove the card from the hand, append it to the trick, advance the cursor,
and resolve the trick when every player has played. -/
def playCardOk (room : Room) (me : String) (player : Player) (hand : List Card)
    (i : Nat) (card : Card) : Room :=
  let hand1 := hand.eraseIdx i
  let trick1 := room.current_trick ++ [⟨me, player.name, card⟩]
  let room1 := { room with
    playerHands := mapSet room.playerHands me hand1
    current_trick := trick1 }
  let room2 :=
    if room.current_play_order.length > 0 then
      { room1 with next_player_index := (room.next_player_index + 1) % room.players.length }
    else room1
  if trick1.length = room.players.length then
    let trump := room.trump_rotation.getD ((room.current_round - 1) % 4) ""
    match determineTrickWinner trick1 trump with
    | none => room2
    | some winningPlay =>
      let tricks1 := mapSet room2.tricks_won winningPlay.playerId
        (((mapGet room2.tricks_won winningPlay.playerId).getD 0) + 1)
      let room3 := { room2 with tricks_won := tricks1, current_trick := [] }
      let totalTricksPlayed := sumValues tricks1
      if totalTricksPlayed = room.cards_this_round then
        room3
      else
        let winnerIndex := room.players.findIdx (fun p => p.id == winningPlay.playerId)
        let playOrder := rotate room.players winnerIndex
        { room3 with current_play_order := playOrder.map Player.id, next_player_index := 0 }
  else room2

/-- The playCard handler (src/index.js lines 468 to 585): validation then the
success path.  Indexing an array out of range gives undefined in JavaScript,
so the expected player at the cursor is an optional value and a missing hand
fails the card selection check. -/
def playCard (room : Room) (me : String) (cardIndex : Int) : Except String Room :=
  if room.state ≠ GameState.playing then .error "Not in play phase"
  else
    match room.players.find? (fun p => p.id == me) with
    | none => .error "Player not found"
    | some player =>
      if room.current_play_order.length > 0 ∧
          room.current_play_order.get? room.next_player_index ≠ some me then
        .error "It\x27s not your turn to play"
      else
        match mapGet room.playerHands me with
        | none => .error "Invalid card selection"
        | some hand =>
          if cardIndex < 0 ∨ (hand.length : Int) ≤ cardIndex then
            .error "Invalid card selection"
          else
            match hand.get? cardIndex.toNat with
            | none => .error "Invalid card selection"
            | some card =>
              match room.current_trick.head? with
              | some firstPlay =>
                if (hand.any (fun c => c.suit == firstPlay.card.suit)) ∧
                    card.suit ≠ firstPlay.card.suit then
                  .error "You must follow the lead suit if possible"
                else
                  .ok (playCardOk room me player hand cardIndex.toNat card)
              | none => .ok (playCardOk room me player hand cardIndex.toNat card)

/-- Score update of endRound for one player: scores[id] += delta.  On a
missing key JavaScript would store NaN; that branch is modelled as leaving
the map unchanged and theorems only use it with the key present. -/
def addScore (scores : List (String × Int)) (id : String) (delta : Int) :
    List (String × Int) :=
  match mapGet scores id with
  | some s => mapSet scores id (s + delta)
  | none => scores

/-- The signed score delta of endRound (src/index.js lines 387 to 396):
predicted equal to actual earns 10 + actual * 11, otherwise the absolute
difference is deducted.  Missing predictions and trick counts default to 0
through the JavaScript or-with-zero idiom. -/
def roundDelta (room : Room) (pid : String) : Int :=
  let predicted := (mapGet room.predictions pid).getD 0
  let actual := (mapGet room.tricks_won pid).getD 0
  if predicted = actual then 10 + actual * 11
  else -(((predicted - actual).natAbs : Int))

/-- Observable outcome of endRound: the updated room, whether the gameOver
broadcast fired, and the delay of the startRound timer it scheduled. -/
structure EndRoundResult where
  room : Room
  gameOver : Bool
  restartDelayMs : Nat
deriving Repr, DecidableEq

/-- endRound (src/index.js lines 380 to 466): set SCORING, apply the score
deltas, rotate turn_index, then advance cardsThisRound through the
ascending or descending phase.  In the game-over branch the source comment
at line 453 announces a score reset for the new game, but no reset code
follows it, so the scores carry over unchanged. -/
def endRound (room : Room) : EndRoundResult :=
  let scores1 := room.players.foldl
    (fun sc p => addScore sc p.id (roundDelta room p.id)) room.scores
  let room1 := { room with
    state := GameState.scoring
    scores := scores1
    turn_index := (room.turn_index + 1) % room.players.length }
  if room.ascending then
    if room.cards_this_round < room.max_round_cards then
      let room2 := { room1 with
        cards_this_round := room.cards_this_round + 1,
        current_round := room.current_round + 1 }
      { room := room2, gameOver := false, restartDelayMs := 5000 }
    else
      let room2 := { room1 with
        ascending := false,
        cards_this_round := room.cards_this_round - 1,
        current_round := room.current_round + 1 }
      { room := room2, gameOver := false, restartDelayMs := 5000 }
  else
    if room.cards_this_round > room.min_round_cards then
      let room2 := { room1 with
        cards_this_round := room.cards_this_round - 1,
        current_round := room.current_round + 1 }
      { room := room2, gameOver := false, restartDelayMs := 5000 }
    else
      let room2 := { room1 with
        state := GameState.waiting, current_round := 1,
        cards_this_round := room.min_round_cards, turn_index := 0,
        ascending := true }
      { room := room2, gameOver := true, restartDelayMs := 3000 }

/-- Observable outcome of the disconnect handler for one room: the surviving
room (none when the emptied room is deleted), whether a startRound restart
was scheduled, and whether the gameEnded notice was broadcast. -/
structure DisconnectResult where
  room : Option Room
  scheduledRestart : Bool
  gameEndedNotice : Bool
deriving Repr, DecidableEq

/-- The disconnect handler for one room (src/index.js lines 587 to 641).
The source first deletes the departed player from predictions, tricks_won
and current_play_order and fixes the cursor, then wholesale resets those
same fields a few lines later; the model records the resulting final values.
Scores and playerHands only have the departed player removed. -/
def disconnect (room : Room) (me : String) : DisconnectResult :=
  if room.players.all (fun p => p.id != me) then
    { room := some room, scheduledRestart := false, gameEndedNotice := false }
  else
    let players1 := room.players.filter (fun p => p.id != me)
    let roomA := { room with players := players1 }
    if room.state ≠ GameState.waiting then
      if players1.length ≥ 2 then
        let roomB := { roomA with
          scores := mapErase room.scores me
          playerHands := mapErase room.playerHands me
          turn_index := room.turn_index % players1.length
          predictions := []
          tricks_won := []
          current_trick := []
          current_play_order := []
          next_player_index := 0
          state := GameState.predicting }
        { room := some roomB, scheduledRestart := true, gameEndedNotice := false }
      else
        let roomB := { roomA with state := GameState.waiting }
        { room := if players1.isEmpty then none else some roomB
          scheduledRestart := false, gameEndedNotice := true }
    else
      { room := if players1.isEmpty then none else some roomA
        scheduledRestart := false, gameEndedNotice := false }

/-! ### Lemmas about the trick winner loop -/

theorem lastMaxFrom_cons (w c : TrickPlay) (l : List TrickPlay) :
    lastMaxFrom w (c :: l) =
      lastMaxFrom (if getCardValue w.card.rank ≤ getCardValue c.card.rank then c else w) l :=
  rfl

/-- Once the running winner is a trump card, the loop computes the last
maximum-value card among the remaining trump cards, seeded by the winner. -/
theorem trickWinnerGo_trump (leadSuit trumpSuit : String) (rest : List TrickPlay) :
    ∀ w : TrickPlay, w.card.suit = trumpSuit →
    trickWinnerGo leadSuit trumpSuit w (getCardValue w.card.rank) true rest =
      lastMaxFrom w (rest.filter (fun p => p.card.suit == trumpSuit)) := by
  induction rest with
  | nil => intro w _; rfl
  | cons c rest ih =>
    intro w hw
    by_cases hc : c.card.suit = trumpSuit
    · simp only [trickWinnerGo, List.filter_cons, hc, not_true_eq_false, and_false, and_true,
        if_false, if_true, beq_self_eq_true, ite_true, lastMaxFrom_cons]
      by_cases hgt : getCardValue c.card.rank > getCardValue w.card.rank
      · rw [if_pos hgt, if_pos (le_of_lt hgt), ih c hc]
      · rw [if_neg hgt]
        by_cases heq : getCardValue c.card.rank = getCardValue w.card.rank
        · rw [if_pos heq, if_pos (le_of_eq heq.symm), ← heq, ih c hc]
        · have hlt : ¬ getCardValue w.card.rank ≤ getCardValue c.card.rank := by omega
          rw [if_neg heq, if_neg hlt, ih w hw]
    · simp only [trickWinnerGo, List.filter_cons, hc, not_true_eq_false, false_and, and_false,
        if_false, beq_iff_eq, ite_false, ih w hw]

/-- While no trump has been played and the running winner follows the lead
suit, the loop hands over to the trump phase at the first trump card, and
otherwise computes the last maximum among the lead-suit cards. -/
theorem trickWinnerGo_lead (leadSuit trumpSuit : String) (rest : List TrickPlay) :
    ∀ w : TrickPlay, w.card.suit = leadSuit → w.card.suit ≠ trumpSuit →
    trickWinnerGo leadSuit trumpSuit w (getCardValue w.card.rank) false rest =
      (match rest.filter (fun p => p.card.suit == trumpSuit) with
       | t :: ts => lastMaxFrom t ts
       | [] => lastMaxFrom w (rest.filter (fun p => p.card.suit == leadSuit))) := by
  induction rest with
  | nil => intro w _ _; rfl
  | cons c rest ih =>
    intro w hwl hwt
    by_cases hc : c.card.suit = trumpSuit
    · simp only [trickWinnerGo, List.filter_cons, hc, not_false_eq_true, and_true, if_true,
        beq_self_eq_true, ite_true]
      rw [trickWinnerGo_trump leadSuit trumpSuit rest c hc]
      rfl
    · by_cases hcl : c.card.suit = leadSuit
      · have hlnt : leadSuit ≠ trumpSuit := by rw [← hwl]; exact hwt
        have hstep : trickWinnerGo leadSuit trumpSuit w (getCardValue w.card.rank) false (c :: rest) =
            trickWinnerGo leadSuit trumpSuit
              (if getCardValue w.card.rank ≤ getCardValue c.card.rank then c else w)
              (getCardValue
                (if getCardValue w.card.rank ≤ getCardValue c.card.rank then c else w).card.rank)
              false rest := by
          simp only [trickWinnerGo, hc, hcl, not_false_eq_true, and_true, true_and, false_and,
            if_false, ite_false, Bool.false_eq_true, and_false]
          by_cases hgt : getCardValue c.card.rank > getCardValue w.card.rank
          · rw [if_pos hgt, if_pos (le_of_lt hgt)]
            simp [hlnt]
          · rw [if_neg hgt]
            by_cases heq : getCardValue c.card.rank = getCardValue w.card.rank
            · rw [if_pos heq, if_pos (le_of_eq heq.symm), ← heq]
              simp [hlnt]
            · have hlt : ¬ getCardValue w.card.rank ≤ getCardValue c.card.rank := by omega
              rw [if_neg heq, if_neg hlt]
              simp [hlnt]
        rw [hstep]
        set w' := if getCardValue w.card.rank ≤ getCardValue c.card.rank then c else w with hw'
        have hw'l : w'.card.suit = leadSuit := by
          rw [hw']; split <;> assumption
        have hw't : w'.card.suit ≠ trumpSuit := by
          rw [hw']; split <;> assumption
        rw [ih w' hw'l hw't]
        have hfc : (c :: rest).filter (fun p => p.card.suit == trumpSuit) =
            rest.filter (fun p => p.card.suit == trumpSuit) := by
          simp [List.filter_cons, hc]
        have hfl : (c :: rest).filter (fun p => p.card.suit == leadSuit) =
            c :: rest.filter (fun p => p.card.suit == leadSuit) := by
          simp [List.filter_cons, hcl]
        rw [hfc, hfl]
        cases hsplit : rest.filter (fun p => p.card.suit == trumpSuit) with
        | nil => simp only [lastMaxFrom_cons]
        | cons t ts => rfl
      · have hskip : trickWinnerGo leadSuit trumpSuit w (getCardValue w.card.rank) false (c :: rest) =
            trickWinnerGo leadSuit trumpSuit w (getCardValue w.card.rank) false rest := by
          simp only [trickWinnerGo, hc, hcl, false_and, and_false, if_false, ite_false,
            Bool.false_eq_true, not_false_eq_true, and_true]
        rw [hskip, ih w hwl hwt]
        have hfc : (c :: rest).filter (fun p => p.card.suit == trumpSuit) =
            rest.filter (fun p => p.card.suit == trumpSuit) := by
          simp [List.filter_cons, hc]
        have hfl : (c :: rest).filter (fun p => p.card.suit == leadSuit) =
            rest.filter (fun p => p.card.suit == leadSuit) := by
          simp [List.filter_cons, hcl]
        rw [hfc, hfl]

/-- C3.  For every non-empty trick, determineTrickWinner agrees with the
trick winner described by the spec: the highest-ranked trump card if any
trump was played, otherwise the highest-ranked card of the lead suit, with
equal ranks resolved to the later-played card in both cases, and a card of
neither suit never winning; ranks are valued 2 to 10 numeric, J=11, Q=12,
K=13, A=14 through getCardValue. -/
theorem trick_winner_matches_spec (c0 : TrickPlay) (rest : List TrickPlay) (trumpSuit : String) :
    determineTrickWinner (c0 :: rest) trumpSuit = specTrickWinner (c0 :: rest) trumpSuit := by
  by_cases h0 : c0.card.suit = trumpSuit
  · have hd : decide (c0.card.suit = trumpSuit) = true := by simp [h0]
    simp only [determineTrickWinner, hd]
    rw [trickWinnerGo_trump c0.card.suit trumpSuit rest c0 h0]
    simp only [specTrickWinner, List.filter_cons, h0, beq_self_eq_true, ite_true]
  · have hd : decide (c0.card.suit = trumpSuit) = false := by simp [h0]
    simp only [determineTrickWinner, hd]
    rw [trickWinnerGo_lead c0.card.suit trumpSuit rest c0 rfl h0]
    have hfc : (c0 :: rest).filter (fun p => p.card.suit == trumpSuit) =
        rest.filter (fun p => p.card.suit == trumpSuit) := by
      simp [List.filter_cons, h0]
    have hfl : (c0 :: rest).filter (fun p => p.card.suit == c0.card.suit) =
        c0 :: rest.filter (fun p => p.card.suit == c0.card.suit) := by
      simp [List.filter_cons]
    cases hsplit : rest.filter (fun p => p.card.suit == trumpSuit) with
    | nil =>
      simp only [specTrickWinner, hfc, hsplit, hfl]
    | cons t ts =>
      simp only [specTrickWinner, hfc, hsplit, hfl]

/-! ### Association list lemmas -/

theorem mapGet_mapSet_self {α : Type} (m : List (String × α)) (k : String) (v : α) :
    mapGet (mapSet m k v) k = some v := by
  induction m with
  | nil => simp [mapSet, mapGet]
  | cons kv rest ih =>
    obtain ⟨k', v'⟩ := kv
    by_cases h : k' = k
    · simp [mapSet, mapGet, h]
    · simp [mapSet, mapGet, h, ih]

theorem mapGet_mapSet_ne {α : Type} (m : List (String × α)) (k k' : String) (v : α)
    (h : k' ≠ k) : mapGet (mapSet m k v) k' = mapGet m k' := by
  have h2 : ¬ k = k' := fun he => h he.symm
  induction m with
  | nil => simp [mapSet, mapGet, h2]
  | cons kv rest ih =>
    obtain ⟨ka, va⟩ := kv
    by_cases hka : ka = k
    · subst hka
      simp [mapSet, mapGet, h2]
    · by_cases hka' : ka = k'
      · subst hka'
        simp [mapSet, mapGet, hka]
      · simp [mapSet, mapGet, hka, hka', ih]

theorem mapGet_mapErase {α : Type} (m : List (String × α)) (k k' : String) :
    mapGet (mapErase m k) k' = if k' = k then none else mapGet m k' := by
  induction m with
  | nil => simp [mapErase, mapGet]
  | cons kv rest ih =>
    obtain ⟨ka, va⟩ := kv
    by_cases hka : ka = k
    · subst hka
      by_cases hk' : k' = ka
      · subst hk'
        simpa [mapErase, mapGet] using ih
      · have hne : ¬ ka = k' := fun he => hk' he.symm
        simpa [mapErase, mapGet, hk', hne] using ih
    · by_cases hk'a : ka = k'
      · subst hk'a
        simp [mapErase, mapGet, hka, fun he : ka = k => hka he]
      · simpa [mapErase, mapGet, hka, hk'a] using ih

theorem mapGet_addScore (m : List (String × Int)) (k k' : String) (d : Int) :
    mapGet (addScore m k d) k' =
      if k' = k then (mapGet m k).map (· + d) else mapGet m k' := by
  unfold addScore
  cases h : mapGet m k with
  | none =>
    by_cases hk : k' = k
    · rw [if_pos hk]
      show mapGet m k' = Option.map (fun x => x + d) none
      rw [hk, h]
      rfl
    · rw [if_neg hk]
  | some s =>
    by_cases hk : k' = k
    · rw [if_pos hk]
      show mapGet (mapSet m k (s + d)) k' = Option.map (fun x => x + d) (some s)
      rw [hk, mapGet_mapSet_self]
      rfl
    · rw [if_neg hk]
      exact mapGet_mapSet_ne m k k' _ hk

theorem foldl_addScore_not_mem (players : List Player) (f : String → Int)
    (m : List (String × Int)) (k : String) (hk : ∀ q ∈ players, q.id ≠ k) :
    mapGet (players.foldl (fun sc q => addScore sc q.id (f q.id)) m) k = mapGet m k := by
  induction players generalizing m with
  | nil => rfl
  | cons q rest ih =>
    simp only [List.foldl_cons]
    rw [ih _ (fun r hr => hk r (List.mem_cons_of_mem q hr)), mapGet_addScore]
    rw [if_neg (Ne.symm (hk q (List.mem_cons_self q rest)))]

theorem foldl_addScore_mem (players : List Player) (f : String → Int)
    (m : List (String × Int)) (p : Player) (hp : p ∈ players)
    (hnd : (players.map Player.id).Nodup) :
    mapGet (players.foldl (fun sc q => addScore sc q.id (f q.id)) m) p.id =
      (mapGet m p.id).map (· + f p.id) := by
  induction players generalizing m with
  | nil => cases hp
  | cons q rest ih =>
    simp only [List.map_cons, List.nodup_cons] at hnd
    obtain ⟨hqid, hnd'⟩ := hnd
    simp only [List.foldl_cons]
    rcases List.mem_cons.mp hp with rfl | hp'
    · rw [foldl_addScore_not_mem rest f _ p.id
        (fun r hr he => hqid (he ▸ List.mem_map_of_mem Player.id hr))]
      rw [mapGet_addScore, if_pos rfl]
    · have hne : q.id ≠ p.id := fun he => hqid (he ▸ List.mem_map_of_mem Player.id hp')
      rw [ih _ hp' hnd', mapGet_addScore, if_neg (Ne.symm hne)]

/-- The scores component of endRound is the score fold, in every branch of
the cards advancement. -/
theorem endRound_scores_eq (room : Room) :
    (endRound room).room.scores =
      room.players.foldl (fun sc q => addScore sc q.id (roundDelta room q.id)) room.scores := by
  unfold endRound
  split <;> split <;> rfl

/-- C4.  At endRound, a player whose prediction equals their actual trick
count gains exactly 10 + actual * 11 points, and otherwise loses exactly
the absolute difference between predicted and actual, on top of their
previous cumulative score. -/
theorem endRound_scoring (room : Room) (p : Player) (s : Int)
    (hp : p ∈ room.players)
    (hnd : (room.players.map Player.id).Nodup)
    (hs : mapGet room.scores p.id = some s) :
    mapGet (endRound room).room.scores p.id =
      some (if (mapGet room.predictions p.id).getD 0 = (mapGet room.tricks_won p.id).getD 0
            then s + (10 + ((mapGet room.tricks_won p.id).getD 0) * 11)
            else s - (((mapGet room.predictions p.id).getD 0 -
                       (mapGet room.tricks_won p.id).getD 0).natAbs : Int)) := by
  rw [endRound_scores_eq, foldl_addScore_mem room.players (fun pid => roundDelta room pid)
    room.scores p hp hnd, hs]
  simp only [Option.map_some', roundDelta]
  split_ifs with h
  · rfl
  · simp [sub_eq_add_neg]

/-- A concrete two-player room used to witness the scoring rule: Alice
predicted 2 and won 2 tricks, Bob predicted 1 and won 3. -/
def c4Room : Room :=
  { host := "A"
    players := [⟨"A", "Alice"⟩, ⟨"B", "Bob"⟩]
    maxPlayers := 4, number_of_decks := 1, max_round_cards := 3, min_round_cards := 1
    trump_rotation := ["Spades", "Diamonds", "Clubs", "Hearts"]
    current_round := 3, cards_this_round := 3, turn_index := 0
    state := GameState.playing, ascending := true
    predictions := [("A", 2), ("B", 1)]
    tricks_won := [("A", 2), ("B", 3)]
    scores := [("A", 0), ("B", 5)]
    current_trick := [], playerHands := []
    predictionOrder := [], current_play_order := ["A", "B"], next_player_index := 0 }

/-- Witness for C4: predicted = actual = 2 adds 32 points, and predicted 1
with actual 3 subtracts 2 points. -/
theorem endRound_scoring_witness :
    mapGet (endRound c4Room).room.scores "A" = some 32 ∧
    mapGet (endRound c4Room).room.scores "B" = some 3 :=
  ⟨(endRound_scoring c4Room ⟨"A", "Alice"⟩ 0 (by decide) (by decide) (by decide)).trans
      (by decide),
   (endRound_scoring c4Room ⟨"B", "Bob"⟩ 5 (by decide) (by decide) (by decide)).trans
      (by decide)⟩

/-- C8.  A joinRoom call from a connection already in the player list always
fails with the already-joined error, before any other validation, and the
room it leaves behind is unchanged, so the roster is never duplicated. -/
theorem joinRoom_already_member (room : Room) (me playerName : String)
    (h : ∃ p ∈ room.players, p.id = me) :
    joinRoom room me playerName = Except.error "You are already in this room" ∧
    applyResult (joinRoom room me playerName) room = room := by
  have hb : room.players.any (fun p => p.id == me) = true := by
    obtain ⟨p, hp, hpe⟩ := h
    exact List.any_eq_true.mpr ⟨p, hp, by simp [hpe]⟩
  refine ⟨?_, ?_⟩
  · simp [joinRoom, hb]
  · simp [joinRoom, hb, applyResult]

/-- A concrete room in the WAITING state with spare capacity, whose member
Bob attempts to join again. -/
def c8Room : Room :=
  { host := "A"
    players := [⟨"A", "Alice"⟩, ⟨"B", "Bob"⟩]
    maxPlayers := 4, number_of_decks := 1, max_round_cards := 3, min_round_cards := 1
    trump_rotation := ["Spades", "Diamonds", "Clubs", "Hearts"]
    current_round := 1, cards_this_round := 1, turn_index := 0
    state := GameState.waiting, ascending := true
    predictions := [], tricks_won := [], scores := []
    current_trick := [], playerHands := []
    predictionOrder := [], current_play_order := [], next_player_index := 0 }

/-- Witness for C8: the duplicate join is rejected even though the room is
in WAITING and not full, and the roster keeps exactly one Bob entry. -/
theorem joinRoom_already_member_witness :
    joinRoom c8Room "B" "Bobby" = Except.error "You are already in this room" ∧
    applyResult (joinRoom c8Room "B" "Bobby") c8Room = c8Room :=
  joinRoom_already_member c8Room "B" "Bobby" ⟨⟨"B", "Bob"⟩, by decide, rfl⟩

/-- Projection of a handler result to the successor room, none on error. -/
def okRoom (r : Except String Room) : Option Room :=
  match r with
  | .ok v => some v
  | .error _ => none

/-- A two-player room in the PREDICTING phase of a one-card round, with the
full prediction order still pending: the state reached right after
startRound deals round 1. -/
def c1Room : Room :=
  { host := "A"
    players := [⟨"A", "Alice"⟩, ⟨"B", "Bob"⟩]
    maxPlayers := 4, number_of_decks := 1, max_round_cards := 3, min_round_cards := 1
    trump_rotation := ["Spades", "Diamonds", "Clubs", "Hearts"]
    current_round := 1, cards_this_round := 1, turn_index := 0
    state := GameState.predicting, ascending := true
    predictions := [], tricks_won := [("A", 0), ("B", 0)], scores := [("A", 0), ("B", 0)]
    current_trick := []
    playerHands := [("A", [⟨"A", "Spades"⟩]), ("B", [⟨"K", "Hearts"⟩])]
    predictionOrder := ["A", "B"], current_play_order := [], next_player_index := 0 }

/-- C1.  Evaluating the code at the failing input: Alice predicts 0, then
Bob, the last remaining predictor, predicts 1, which makes the recorded
prediction total equal cardsThisRound, yet the call is accepted and the
round proceeds to PLAYING.  The last-predictor guard compares the index in
the shrinking predictionOrder queue with players.length - 1, so it never
fires for a predictor acting in turn. -/
theorem makePrediction_equal_sum_accepted :
    (okRoom ((makePrediction c1Room "A" 0).bind (fun r => makePrediction r "B" 1))).map
        (fun r => (sumValues r.predictions, r.cards_this_round, r.state)) =
      some (1, 1, GameState.playing) := by
  decide

/-- A three-player room in the PREDICTING phase with nobody having predicted
yet; Alice is at the head of the prediction order. -/
def c2Room : Room :=
  { host := "A"
    players := [⟨"A", "Alice"⟩, ⟨"B", "Bob"⟩, ⟨"C", "Carol"⟩]
    maxPlayers := 4, number_of_decks := 1, max_round_cards := 3, min_round_cards := 1
    trump_rotation := ["Spades", "Diamonds", "Clubs", "Hearts"]
    current_round := 2, cards_this_round := 2, turn_index := 1
    state := GameState.predicting, ascending := true
    predictions := [], tricks_won := [("A", 0), ("B", 0), ("C", 0)]
    scores := [("A", 0), ("B", 0), ("C", 0)]
    current_trick := [], playerHands := []
    predictionOrder := ["A", "B", "C"], current_play_order := [], next_player_index := 0 }

/-- C2 counterexample: Bob is in the prediction order but not at its head,
and his out-of-turn prediction is nevertheless accepted and recorded.  The
source only rejects a requester who is absent from predictionOrder. -/
theorem makePrediction_out_of_turn_accepted :
    c2Room.state = GameState.predicting ∧
    c2Room.predictionOrder.head? = some "A" ∧
    c2Room.predictionOrder.get? 1 = some "B" ∧
    isOk (makePrediction c2Room "B" 0) = true ∧
    (okRoom (makePrediction c2Room "B" 0)).map (fun r => mapGet r.predictions "B") =
      some (some 0) := by
  decide

/-- Helper: findIndex misses every key that is not in the list. -/
theorem findIndex_eq_none_of_not_mem (l : List String) (me : String) (h : me ∉ l) :
    findIndex l me = none := by
  induction l with
  | nil => rfl
  | cons a rest ih =>
    have ha : ¬ a = me := fun he => h (he ▸ List.mem_cons_self a rest)
    have hr : me ∉ rest := fun hm => h (List.mem_cons_of_mem a hm)
    simp [findIndex, ha, ih hr]

/-- C2 amended.  The turn guard of makePrediction only checks membership in
predictionOrder: a PREDICTING-state room member whose id is absent from
predictionOrder is rejected with the not-your-turn error, while members
still in predictionOrder are not turn-rejected even away from the head. -/
theorem makePrediction_not_in_order_rejected (room : Room) (me : String) (v : Int)
    (hst : room.state = GameState.predicting)
    (hmem : ∃ p ∈ room.players, p.id = me)
    (hlo : 0 ≤ v) (hhi : v ≤ room.cards_this_round)
    (hord : me ∉ room.predictionOrder) :
    makePrediction room me v = Except.error "It\x27s not your turn to predict" := by
  obtain ⟨p, hp, hpe⟩ := hmem
  have hrange : ¬ (v < 0 ∨ v > room.cards_this_round) := by omega
  have hidx : findIndex room.predictionOrder me = none :=
    findIndex_eq_none_of_not_mem room.predictionOrder me hord
  cases hf : room.players.find? (fun q => q.id == me) with
  | none =>
    exfalso
    have := List.find?_eq_none.mp hf p hp
    simp [hpe] at this
  | some q =>
    simp only [makePrediction, hst, ne_eq, not_true_eq_false, if_false, hf, hrange, hidx,
      ite_false]

/-- Witness for the amended C2: in the concrete three-player room, a member
removed from the prediction order is turn-rejected. -/
theorem makePrediction_not_in_order_rejected_witness :
    makePrediction { c2Room with predictionOrder := ["A", "C"] } "B" 0 =
      Except.error "It\x27s not your turn to predict" :=
  makePrediction_not_in_order_rejected { c2Room with predictionOrder := ["A", "C"] } "B" 0
    rfl ⟨⟨"B", "Bob"⟩, by decide, rfl⟩ (by decide) (by decide) (by decide)

/-- Advancing one round: the room left behind by endRound. -/
def endRoundStep (r : Room) : Room := (endRound r).room

/-- A two-player room configured with minRoundCards 1 and maxRoundCards 3,
about to finish its first one-card round. -/
def c5Room : Room :=
  { host := "A"
    players := [⟨"A", "Alice"⟩, ⟨"B", "Bob"⟩]
    maxPlayers := 4, number_of_decks := 1, max_round_cards := 3, min_round_cards := 1
    trump_rotation := ["Spades", "Diamonds", "Clubs", "Hearts"]
    current_round := 1, cards_this_round := 1, turn_index := 0
    state := GameState.playing, ascending := true
    predictions := [("A", 0), ("B", 1)], tricks_won := [("A", 0), ("B", 1)]
    scores := [("A", 0), ("B", 0)]
    current_trick := [], playerHands := []
    predictionOrder := [], current_play_order := ["A", "B"], next_player_index := 0 }

/-- The same room configured with minRoundCards = maxRoundCards = 1, a
configuration validateGameConfig accepts. -/
def c5BadRoom : Room :=
  { c5Room with max_round_cards := 1 }

/-- C5.  The cardsThisRound progression for min 1, max 3 is 1, 2, 3, 2, 1
with game over after the fifth round, as claimed; but the bound
minRoundCards le cardsThisRound fails for the accepted configuration
min = max = 1: the first endRound flips to descending and decrements
cardsThisRound to 0, below the minimum, without ending the game. -/
theorem cards_progression_and_bound_violation :
    (c5Room.cards_this_round = 1 ∧
     (endRoundStep c5Room).cards_this_round = 2 ∧
     (endRoundStep (endRoundStep c5Room)).cards_this_round = 3 ∧
     (endRoundStep (endRoundStep (endRoundStep c5Room))).cards_this_round = 2 ∧
     (endRoundStep (endRoundStep (endRoundStep (endRoundStep c5Room)))).cards_this_round = 1 ∧
     (endRound c5Room).gameOver = false ∧
     (endRound (endRoundStep c5Room)).gameOver = false ∧
     (endRound (endRoundStep (endRoundStep c5Room))).gameOver = false ∧
     (endRound (endRoundStep (endRoundStep (endRoundStep c5Room)))).gameOver = false ∧
     (endRound (endRoundStep (endRoundStep (endRoundStep (endRoundStep c5Room))))).gameOver
       = true) ∧
    ((endRound c5BadRoom).room.cards_this_round = 0 ∧
     (endRound c5BadRoom).room.cards_this_round < c5BadRoom.min_round_cards ∧
     (endRound c5BadRoom).gameOver = false) := by
  decide

/-- A two-player room about to finish the final descending one-card round,
with nonzero cumulative scores entering the last scoring pass. -/
def c6Room : Room :=
  { host := "A"
    players := [⟨"A", "Alice"⟩, ⟨"B", "Bob"⟩]
    maxPlayers := 4, number_of_decks := 1, max_round_cards := 3, min_round_cards := 1
    trump_rotation := ["Spades", "Diamonds", "Clubs", "Hearts"]
    current_round := 5, cards_this_round := 1, turn_index := 0
    state := GameState.playing, ascending := false
    predictions := [("A", 0), ("B", 1)], tricks_won := [("A", 1), ("B", 0)]
    scores := [("A", 50), ("B", 40)]
    current_trick := [], playerHands := []
    predictionOrder := [], current_play_order := ["A", "B"], next_player_index := 0 }

/-- C6.  At game over the room is reset to round 1, minimum cards,
ascending, turnIndex 0 and WAITING, and a new game is auto-scheduled after
the 3000 ms delay; but the cumulative scores are not reset to zero: both
players keep their scored totals (49 and 39 after the final deltas), even
though the source comment at line 453 announces a reset. -/
theorem game_over_reset_keeps_scores :
    (endRound c6Room).gameOver = true ∧
    (endRound c6Room).room.state = GameState.waiting ∧
    (endRound c6Room).room.current_round = 1 ∧
    (endRound c6Room).room.cards_this_round = c6Room.min_round_cards ∧
    (endRound c6Room).room.ascending = true ∧
    (endRound c6Room).room.turn_index = 0 ∧
    (endRound c6Room).restartDelayMs = 3000 ∧
    (endRound c6Room).room.scores = [("A", 49), ("B", 39)] := by
  decide

/-- C10.  A successful prediction removes the player from predictionOrder
and stores the predicted value, and any further prediction by the same
player in the same round is rejected, whatever value is submitted, leaving
the stored prediction in place. -/
theorem predict_at_most_once (room r' : Room) (me : String) (v w : Int)
    (h : makePrediction room me v = Except.ok r') :
    me ∉ r'.predictionOrder ∧
    mapGet r'.predictions me = some v ∧
    isError (makePrediction r' me w) = true := by
  unfold makePrediction at h
  split at h
  · exact Except.noConfusion h
  · rename_i hst
    split at h
    · exact Except.noConfusion h
    · rename_i q hf
      split at h
      · exact Except.noConfusion h
      · rename_i hrange
        split at h
        · exact Except.noConfusion h
        · rename_i idx hidx
          simp only [] at h
          split at h
          · exact Except.noConfusion h
          · rename_i hlast
            have hstate : room.state = GameState.predicting := by
              by_contra hne
              exact hst hne
            split at h
            · have hr' := Except.ok.inj h
              subst hr'
              refine ⟨?_, ?_, ?_⟩
              · simp [startPlayPhase, List.mem_filter]
              · simp [startPlayPhase, mapGet_mapSet_self]
              · simp [makePrediction, startPlayPhase, isError]
            · have hr' := Except.ok.inj h
              subst hr'
              refine ⟨?_, ?_, ?_⟩
              · simp [List.mem_filter]
              · simp [mapGet_mapSet_self]
              · have hnotin : me ∉ room.predictionOrder.filter (fun id => id != me) := by
                  simp [List.mem_filter]
                have hidx2 : findIndex (room.predictionOrder.filter (fun id => id != me)) me =
                    none :=
                  findIndex_eq_none_of_not_mem _ me hnotin
                by_cases hw : w < 0 ∨ w > room.cards_this_round
                · simp [makePrediction, hstate, hf, hw, isError]
                · simp [makePrediction, hstate, hf, hw, hidx2, isError]

/-- C9.  A disconnect from a non-WAITING room by a member: with at least two
players remaining, the departed player is purged from scores and hands, the
per-round transient state is cleared with the cursor reset, the remaining
scores and the round counters are untouched, the state becomes PREDICTING
and a restart of the same round is scheduled; with fewer than two remaining
the room falls back to WAITING with no restart; an emptied room is
deleted. -/
theorem disconnect_cleanup (room : Room) (me : String)
    (hmem : ∃ p ∈ room.players, p.id = me)
    (hst : room.state ≠ GameState.waiting) :
    (2 ≤ (room.players.filter (fun p => p.id != me)).length →
      ∃ r', (disconnect room me).room = some r' ∧
        (disconnect room me).scheduledRestart = true ∧
        r'.players = room.players.filter (fun p => p.id != me) ∧
        r'.scores = mapErase room.scores me ∧
        mapGet r'.playerHands me = none ∧
        r'.predictions = [] ∧
        r'.tricks_won = [] ∧
        r'.current_trick = [] ∧
        r'.current_play_order = [] ∧
        r'.next_player_index = 0 ∧
        r'.current_round = room.current_round ∧
        r'.cards_this_round = room.cards_this_round ∧
        r'.state = GameState.predicting ∧
        (∀ p ∈ r'.players, mapGet r'.scores p.id = mapGet room.scores p.id)) ∧
    ((room.players.filter (fun p => p.id != me)).length < 2 →
      (disconnect room me).scheduledRestart = false ∧
      (disconnect room me).gameEndedNotice = true ∧
      ∀ r', (disconnect room me).room = some r' → r'.state = GameState.waiting) ∧
    (room.players.filter (fun p => p.id != me) = [] → (disconnect room me).room = none) := by
  have hall : room.players.all (fun p => p.id != me) = false := by
    obtain ⟨p0, hp0, hpe⟩ := hmem
    refine Bool.eq_false_iff.mpr (fun hT => ?_)
    have := List.all_eq_true.mp hT p0 hp0
    simp [hpe] at this
  unfold disconnect
  rw [hall]
  simp only [Bool.false_eq_true, if_false, hst, ne_eq, not_false_eq_true, if_true]
  refine ⟨?_, ?_, ?_⟩
  · intro hge
    rw [if_pos hge]
    refine ⟨_, rfl, rfl, rfl, rfl, ?_, rfl, rfl, rfl, rfl, rfl, rfl, rfl, rfl, ?_⟩
    · rw [mapGet_mapErase, if_pos rfl]
    · intro p hp
      have hne : p.id ≠ me := by
        have := (List.mem_filter.mp hp).2
        simpa using this
      rw [mapGet_mapErase, if_neg hne]
  · intro hlt
    rw [if_neg (by omega)]
    refine ⟨rfl, rfl, ?_⟩
    intro r' hr'
    by_cases he : (room.players.filter (fun p => p.id != me)).isEmpty
    · rw [if_pos he] at hr'
      exact Option.noConfusion hr'
    · rw [if_neg he] at hr'
      have := Option.some.inj hr'
      subst this
      rfl
  · intro hnil
    by_cases hge : 2 ≤ (room.players.filter (fun p => p.id != me)).length
    · exfalso
      rw [hnil] at hge
      simp at hge
    · rw [if_neg hge, if_pos (by simp [hnil])]

/-- A three-player room in the PLAYING phase from which Carol disconnects;
also used with a reduced roster for the under-two-players branch. -/
def c9Room : Room :=
  { host := "A"
    players := [⟨"A", "Alice"⟩, ⟨"B", "Bob"⟩, ⟨"C", "Carol"⟩]
    maxPlayers := 4, number_of_decks := 1, max_round_cards := 3, min_round_cards := 1
    trump_rotation := ["Spades", "Diamonds", "Clubs", "Hearts"]
    current_round := 2, cards_this_round := 2, turn_index := 1
    state := GameState.playing, ascending := true
    predictions := [("A", 1)], tricks_won := [("A", 0), ("B", 0), ("C", 0)]
    scores := [("A", 7), ("B", 8), ("C", 9)]
    current_trick := []
    playerHands := [("A", [⟨"A", "Spades"⟩]), ("B", [⟨"K", "Hearts"⟩]), ("C", [⟨"2", "Clubs"⟩])]
    predictionOrder := ["B", "C", "A"], current_play_order := ["B", "C", "A"]
    next_player_index := 1 }

/-- Witness for C9, exercising the restart branch with three players and
the deletion of an emptied room. -/
theorem disconnect_cleanup_witness :
    (disconnect c9Room "C").scheduledRestart = true ∧
    (disconnect { c9Room with players := [⟨"C", "Carol"⟩] } "C").room = none := by
  constructor
  · obtain ⟨r', hsome, hsched, hrest⟩ :=
      (disconnect_cleanup c9Room "C" ⟨⟨"C", "Carol"⟩, by decide, rfl⟩ (by decide)).1 (by decide)
    exact hsched
  · exact (disconnect_cleanup { c9Room with players := [⟨"C", "Carol"⟩] } "C"
      ⟨⟨"C", "Carol"⟩, by decide, rfl⟩ (by decide)).2.2 (by decide)

/-- The cardIndex validation of playCard: a missing hand or an index outside
the hand bounds. -/
def cardIndexInvalid (room : Room) (me : String) (i : Int) : Prop :=
  match mapGet room.playerHands me with
  | none => True
  | some hand => i < 0 ∨ (hand.length : Int) ≤ i

/-- The must-follow-suit violation of playCard: a trick is in progress, the
hand holds a card of the lead suit, and the chosen card is of a different
suit. -/
def followSuitViolation (room : Room) (me : String) (i : Int) : Prop :=
  ∃ hand lead card, mapGet room.playerHands me = some hand ∧
    room.current_trick.head? = some lead ∧
    hand.get? i.toNat = some card ∧
    (∃ c ∈ hand, c.suit = lead.card.suit) ∧
    card.suit ≠ lead.card.suit

/-- C7.  playCard fails exactly when the state is not PLAYING, the requester
is not a member, the requester is not at the cursor position of
currentPlayOrder, the card index is invalid for the hand, or the chosen
card breaks the must-follow-suit rule; the suit rule only binds when a
trick is in progress and the hand holds a lead-suit card. -/
theorem playCard_error_iff (room : Room) (me : String) (i : Int)
    (hord : room.current_play_order ≠ []) :
    isError (playCard room me i) = true ↔
      (room.state ≠ GameState.playing ∨
       (∀ p ∈ room.players, p.id ≠ me) ∨
       room.current_play_order.get? room.next_player_index ≠ some me ∨
       cardIndexInvalid room me i ∨
       followSuitViolation room me i) := by
  have hlen : room.current_play_order.length > 0 := List.length_pos.mpr hord
  by_cases h1 : room.state ≠ GameState.playing
  · refine iff_of_true ?_ (Or.inl h1)
    simp only [playCard, if_pos h1, isError]
  · have hstate : room.state = GameState.playing := not_not.mp h1
    cases hf : room.players.find? (fun p => p.id == me) with
    | none =>
      have hnm : ∀ p ∈ room.players, p.id ≠ me := by
        intro p hp
        have := List.find?_eq_none.mp hf p hp
        simpa using this
      refine iff_of_true ?_ (Or.inr (Or.inl hnm))
      simp only [playCard, if_neg h1, hf, isError]
    | some q =>
      have hqmem : q ∈ room.players := List.mem_of_find?_eq_some hf
      have hqid : q.id = me := by simpa using List.find?_some hf
      have hnotall : ¬ (∀ p ∈ room.players, p.id ≠ me) := fun hA => hA q hqmem hqid
      by_cases h3 : room.current_play_order.get? room.next_player_index ≠ some me
      · refine iff_of_true ?_ (Or.inr (Or.inr (Or.inl h3)))
        simp only [playCard, if_neg h1, hf, if_pos (And.intro hlen h3), isError]
      · have hcur : room.current_play_order.get? room.next_player_index = some me :=
          not_not.mp h3
        have hturn : ¬ (room.current_play_order.length > 0 ∧
            room.current_play_order.get? room.next_player_index ≠ some me) :=
          fun hc => hc.2 hcur
        cases hh : mapGet room.playerHands me with
        | none =>
          have hinv : cardIndexInvalid room me i := by simp [cardIndexInvalid, hh]
          refine iff_of_true ?_ (Or.inr (Or.inr (Or.inr (Or.inl hinv))))
          simp only [playCard, if_neg h1, hf, if_neg hturn, hh, isError]
        | some hand =>
          by_cases h4 : i < 0 ∨ (hand.length : Int) ≤ i
          · have hinv : cardIndexInvalid room me i := by
              simp only [cardIndexInvalid, hh]
              exact h4
            refine iff_of_true ?_ (Or.inr (Or.inr (Or.inr (Or.inl hinv))))
            simp only [playCard, if_neg h1, hf, if_neg hturn, hh, if_pos h4, isError]
          · have hinv : ¬ cardIndexInvalid room me i := by
              simp only [cardIndexInvalid, hh]
              exact h4
            obtain ⟨hi0, hiu⟩ := not_or.mp h4
            have hlt : i.toNat < hand.length := by omega
            have hget : hand.get? i.toNat = some (hand.get ⟨i.toNat, hlt⟩) :=
              List.get?_eq_get hlt
            cases ht : room.current_trick.head? with
            | none =>
              have hnfv : ¬ followSuitViolation room me i := by
                rintro ⟨hand2, lead2, card2, hh2, ht2, hget2, hex2, hne2⟩
                rw [ht] at ht2
                exact Option.noConfusion ht2
              refine iff_of_false ?_ ?_
              · simp only [playCard, if_neg h1, hf, if_neg hturn, hh, if_neg h4, hget, ht,
                  isError]
                simp
              · rintro (hc | hc | hc | hc | hc)
                exacts [h1 hc, hnotall hc, h3 hc, hinv hc, hnfv hc]
            | some lead =>
              by_cases h5 : (∃ c ∈ hand, c.suit = lead.card.suit) ∧
                  (hand.get ⟨i.toNat, hlt⟩).suit ≠ lead.card.suit
              · have hany : hand.any (fun c => c.suit == lead.card.suit) = true := by
                  obtain ⟨c, hc, hcs⟩ := h5.1
                  exact List.any_eq_true.mpr ⟨c, hc, by simp [hcs]⟩
                have hv : followSuitViolation room me i :=
                  ⟨hand, lead, hand.get ⟨i.toNat, hlt⟩, hh, ht, hget, h5.1, h5.2⟩
                refine iff_of_true ?_ (Or.inr (Or.inr (Or.inr (Or.inr hv))))
                simp only [playCard, if_neg h1, hf, if_neg hturn, hh, if_neg h4, hget, ht,
                  if_pos (And.intro hany h5.2), isError]
              · have hnfv : ¬ followSuitViolation room me i := by
                  rintro ⟨hand2, lead2, card2, hh2, ht2, hget2, hex2, hne2⟩
                  rw [hh] at hh2
                  have hhe := Option.some.inj hh2
                  subst hhe
                  rw [ht] at ht2
                  have hte := Option.some.inj ht2
                  subst hte
                  rw [hget] at hget2
                  have hge := Option.some.inj hget2
                  subst hge
                  exact h5 ⟨hex2, hne2⟩
                have hnc : ¬ ((hand.any (fun c => c.suit == lead.card.suit)) = true ∧
                    (hand.get ⟨i.toNat, hlt⟩).suit ≠ lead.card.suit) := by
                  rintro ⟨hany, hne⟩
                  obtain ⟨c, hc, hcs⟩ := List.any_eq_true.mp hany
                  exact h5 ⟨⟨c, hc, by simpa using hcs⟩, hne⟩
                refine iff_of_false ?_ ?_
                · simp only [playCard, if_neg h1, hf, if_neg hturn, hh, if_neg h4, hget, ht,
                    if_neg hnc, isError]
                  simp
                · rintro (hc | hc | hc | hc | hc)
                  exacts [h1 hc, hnotall hc, h3 hc, hinv hc, hnfv hc]

/-- A two-player room in the PLAYING phase where Alice is at the cursor. -/
def c7Room : Room :=
  { host := "A"
    players := [⟨"A", "Alice"⟩, ⟨"B", "Bob"⟩]
    maxPlayers := 4, number_of_decks := 1, max_round_cards := 3, min_round_cards := 1
    trump_rotation := ["Spades", "Diamonds", "Clubs", "Hearts"]
    current_round := 1, cards_this_round := 1, turn_index := 0
    state := GameState.playing, ascending := true
    predictions := [("A", 0), ("B", 0)], tricks_won := [("A", 0), ("B", 0)]
    scores := [("A", 0), ("B", 0)]
    current_trick := []
    playerHands := [("A", [⟨"A", "Spades"⟩]), ("B", [⟨"K", "Hearts"⟩])]
    predictionOrder := [], current_play_order := ["A", "B"], next_player_index := 0 }

/-- Witness for C7: Bob playing while Alice is at the cursor is rejected. -/
theorem playCard_error_iff_witness : isError (playCard c7Room "B" 0) = true :=
  (playCard_error_iff c7Room "B" 0 (by decide)).mpr
    (Or.inr (Or.inr (Or.inl (by decide))))

/-- A two-player room in the PREDICTING phase with Alice due to predict. -/
def c10Room : Room :=
  { host := "A"
    players := [⟨"A", "Alice"⟩, ⟨"B", "Bob"⟩]
    maxPlayers := 4, number_of_decks := 1, max_round_cards := 3, min_round_cards := 1
    trump_rotation := ["Spades", "Diamonds", "Clubs", "Hearts"]
    current_round := 1, cards_this_round := 1, turn_index := 0
    state := GameState.predicting, ascending := true
    predictions := [], tricks_won := [("A", 0), ("B", 0)], scores := [("A", 0), ("B", 0)]
    current_trick := []
    playerHands := [("A", [⟨"A", "Spades"⟩]), ("B", [⟨"K", "Hearts"⟩])]
    predictionOrder := ["A", "B"], current_play_order := [], next_player_index := 0 }

/-- The room produced by Alice successfully predicting 0 in c10Room. -/
def c10RoomAfter : Room :=
  { c10Room with predictions := [("A", 0)], predictionOrder := ["B"] }

/-- Witness for C10: after the successful prediction, Alice is out of the
order, her prediction is stored, and a further attempt is rejected. -/
theorem predict_at_most_once_witness :
    "A" ∉ c10RoomAfter.predictionOrder ∧
    mapGet c10RoomAfter.predictions "A" = some 0 ∧
    isError (makePrediction c10RoomAfter "A" 5) = true :=
  predict_at_most_once c10Room c10RoomAfter "A" 0 5 (by rfl)

end Judgment
